import Mathlib

/-!
Shallow embedding of `src/libraries/node-core-library/src/Terminal/Terminal.ts`.

The `Terminal` class fans variadic write calls out to a set of registered
providers, serializing the text segments either plainly or with ANSI color
escape codes depending on each provider's `supportsColor` flag.  The embedding
below models the class state explicitly (`TerminalState`), records each
provider `write` invocation as a `WriteEvent`, and counts how many times the
segment serializer runs in each capability class, so that the memoization
behaviour of `_writeSegmentsToProviders` is observable.
-/

/-- Modelled from the spec: the `Color` enumeration from `../Colors` (the file
is not part of the sources here); exactly the nine named colors. -/
inductive Color where
  | Black
  | Red
  | Green
  | Yellow
  | Blue
  | Magenta
  | Cyan
  | White
  | Gray
deriving DecidableEq

/-- Modelled from the spec: the `Severity` enumeration from
`./ITerminalProvider`; exactly the two values `log` and `warn`. -/
inductive Severity where
  | log
  | warn
deriving DecidableEq

/-- Modelled from the spec: `IColorableSequence` from `../Colors` — a text
fragment with optional foreground and background colors. -/
structure IColorableSequence where
  text : String
  foregroundColor : Option Color := none
  backgroundColor : Option Color := none
deriving DecidableEq

/-- A variadic argument to the write methods: `string | IColorableSequence`. -/
inductive TextSegment where
  | str (s : String)
  | seq (c : IColorableSequence)
deriving DecidableEq

/-- Modelled from the spec: an `ITerminalProvider` sink.  JS distinguishes
providers by reference identity; the `id` field stands in for that identity.
The provider's `write` method is not modelled as code — its invocations are
recorded as `WriteEvent`s. -/
structure Provider where
  id : Nat
  supportsColor : Bool
deriving DecidableEq

/-- One invocation of a provider's `write(text, severity)` method. -/
structure WriteEvent where
  provider : Provider
  text : String
  severity : Severity
deriving DecidableEq

/-- The mutable state of a `Terminal` instance: the provider set (a JS `Set`
iterates in insertion order, so a duplicate-free list) and the public
`verboseEnabled` flag. -/
structure TerminalState where
  providers : List Provider
  verboseEnabled : Bool
deriving DecidableEq

/-- Promotion of a bare string to a record, as in
`typeof segment === 'string' ? { text: segment } : segment`. -/
def toSequence : TextSegment → IColorableSequence
  | TextSegment.str s => { text := s }
  | TextSegment.seq c => c

/-- The foreground `switch` of `_serializeFormattableTextSegments`: the SGR
start code pushed onto `startColorCodes` and the reset code pushed onto
`endColorCodes`; an unset color pushes nothing (no `default` case). -/
def foregroundCodes : Option Color → List Nat × List Nat
  | some Color.Black => ([30], [39])
  | some Color.Red => ([31], [39])
  | some Color.Green => ([32], [39])
  | some Color.Yellow => ([33], [39])
  | some Color.Blue => ([34], [39])
  | some Color.Magenta => ([35], [39])
  | some Color.Cyan => ([36], [39])
  | some Color.White => ([37], [39])
  | some Color.Gray => ([90], [39])
  | none => ([], [])

/-- The background `switch` of `_serializeFormattableTextSegments`. -/
def backgroundCodes : Option Color → List Nat × List Nat
  | some Color.Black => ([40], [49])
  | some Color.Red => ([41], [49])
  | some Color.Green => ([42], [49])
  | some Color.Yellow => ([43], [49])
  | some Color.Blue => ([44], [49])
  | some Color.Magenta => ([45], [49])
  | some Color.Cyan => ([46], [49])
  | some Color.White => ([47], [49])
  | some Color.Gray => ([100], [49])
  | none => ([], [])

/-- `startColorCodes` after both switches ran: foreground codes first, then
background codes. -/
def segmentStartCodes (c : IColorableSequence) : List Nat :=
  (foregroundCodes c.foregroundColor).1 ++ (backgroundCodes c.backgroundColor).1

/-- `endColorCodes` after both switches ran: foreground reset first, then
background reset (emission later reverses this list). -/
def segmentEndCodes (c : IColorableSequence) : List Nat :=
  (foregroundCodes c.foregroundColor).2 ++ (backgroundCodes c.backgroundColor).2

/-- One emitted escape sequence: `'\u001b[' + code.toString() + 'm'`. -/
def colorEscape (code : Nat) : String :=
  "\u001b[" ++ Nat.repr code ++ "m"

/-- `segmentsToJoin.join('')`: concatenation of a list of strings in order. -/
def concatAll : List String → String
  | [] => ""
  | s :: rest => s ++ concatAll rest

/-- The per-segment body of the serializer loop: with color, promote the
segment, emit each start code's escape, the text, then each end code's escape
in reverse push order; without color, emit the bare string or the record's
`text` field. -/
def serializeSegment (withColor : Bool) (seg : TextSegment) : String :=
  if withColor then
    let c := toSequence seg
    concatAll ((segmentStartCodes c).map colorEscape) ++ c.text ++
      concatAll (((segmentEndCodes c).reverse).map colorEscape)
  else
    match seg with
    | TextSegment.str s => s
    | TextSegment.seq c => c.text

/-- `_serializeFormattableTextSegments(segments, withColor)`. -/
def serializeFormattableTextSegments (segments : List TextSegment) (withColor : Bool) : String :=
  concatAll (segments.map (serializeSegment withColor))

/-- Result of one `_writeSegmentsToProviders` call: the provider `write`
invocations in iteration order, and how many times the serializer ran with
`withColor = true` resp. `false`. -/
structure FanoutResult where
  events : List WriteEvent
  colorComputes : Nat
  plainComputes : Nat
deriving DecidableEq

/-- The JS truthiness read `cell || (cell = fresh)`: an unset cell
(`undefined`) or a stored empty string is falsy, so the serializer runs
(again).  Returns the value used and whether a computation happened. -/
def cellRead (cell : Option String) (fresh : String) : String × Bool :=
  match cell with
  | some s => if s = "" then (fresh, true) else (s, false)
  | none => (fresh, true)

/-- The `forEach` loop of `_writeSegmentsToProviders`, threading the two memo
cells `withColor` / `withoutColor` through the provider list. -/
def writeSegmentsGo (segments : List TextSegment) (severity : Severity) :
    List Provider → Option String → Option String → FanoutResult
  | [], _, _ => ⟨[], 0, 0⟩
  | p :: rest, colorCell, plainCell =>
    if p.supportsColor then
      let read := cellRead colorCell (serializeFormattableTextSegments segments true)
      let tail := writeSegmentsGo segments severity rest (some read.1) plainCell
      ⟨⟨p, read.1, severity⟩ :: tail.events,
        (if read.2 then 1 else 0) + tail.colorComputes, tail.plainComputes⟩
    else
      let read := cellRead plainCell (serializeFormattableTextSegments segments false)
      let tail := writeSegmentsGo segments severity rest colorCell (some read.1)
      ⟨⟨p, read.1, severity⟩ :: tail.events,
        tail.colorComputes, (if read.2 then 1 else 0) + tail.plainComputes⟩

/-- `_writeSegmentsToProviders(segments, severity)`: both memo cells start
unset. -/
def writeSegmentsToProviders (providers : List Provider) (segments : List TextSegment)
    (severity : Severity) : FanoutResult :=
  writeSegmentsGo segments severity providers none none

/-- What a public write method returns to this embedding: the fan-out
observations and the instance state after the call. -/
structure OpResult where
  fanout : FanoutResult
  state : TerminalState
deriving DecidableEq

/-- The `{ text: EOL }` segment; `eol` is the platform line ending `os.EOL`
(an arbitrary parameter here, `"\n"` on POSIX, `"\r\n"` on Windows). -/
def eolSegment (eol : String) : TextSegment :=
  TextSegment.seq { text := eol }

/-- The spread-with-override used by the warning and error methods:
`{ ...(typeof part === 'string' ? { text: part } : part), foregroundColor: color }`.
It keeps the text and background color and overwrites the foreground color. -/
def forceForeground (color : Color) (part : TextSegment) : IColorableSequence :=
  { toSequence part with foregroundColor := some color }

/-- A segment with no color set: a bare string, or a record whose two color
fields are both absent. -/
def colorless : TextSegment → Bool
  | TextSegment.str _ => true
  | TextSegment.seq c => c.foregroundColor.isNone && c.backgroundColor.isNone

namespace Terminal

/-- `new Terminal(provider, verboseEnabled = false)`. -/
def construct (provider : Provider) (verboseEnabled : Bool) : TerminalState :=
  { providers := [provider], verboseEnabled := verboseEnabled }

/-- `registerProvider(provider)`: `Set.add`, a no-op on a duplicate. -/
def registerProvider (st : TerminalState) (p : Provider) : TerminalState :=
  if st.providers.contains p then st
  else { st with providers := st.providers ++ [p] }

/-- `unregisterProvider(provider)`: `Set.delete` guarded by `Set.has`. -/
def unregisterProvider (st : TerminalState) (p : Provider) : TerminalState :=
  if st.providers.contains p then
    { st with providers := st.providers.filter (fun q => q ≠ p) }
  else st

/-- `write(...messageParts)`: fan out `[...messageParts, { text: EOL }]` at
severity `log`. -/
def write (eol : String) (st : TerminalState) (messageParts : List TextSegment) : OpResult :=
  ⟨writeSegmentsToProviders st.providers (messageParts ++ [eolSegment eol]) Severity.log, st⟩

/-- `writeLine(...messageParts)`: `this.write(...messageParts, { text: EOL })`. -/
def writeLine (eol : String) (st : TerminalState) (messageParts : List TextSegment) : OpResult :=
  write eol st (messageParts ++ [eolSegment eol])

/-- `writeWarning(...messageParts)`: foreground forced to Yellow, severity
`warn`, no appended line ending. -/
def writeWarning (st : TerminalState) (messageParts : List TextSegment) : OpResult :=
  ⟨writeSegmentsToProviders st.providers
    (messageParts.map (fun part => TextSegment.seq (forceForeground Color.Yellow part)))
    Severity.warn, st⟩

/-- `writeWarningLine(...messageParts)`: foreground forced to Yellow, one
appended `{ text: EOL }` segment, severity `warn`. -/
def writeWarningLine (eol : String) (st : TerminalState) (messageParts : List TextSegment) :
    OpResult :=
  ⟨writeSegmentsToProviders st.providers
    (messageParts.map (fun part => TextSegment.seq (forceForeground Color.Yellow part)) ++
      [eolSegment eol])
    Severity.warn, st⟩

/-- `writeError(...messageParts)`: foreground forced to Red, severity `warn`,
no appended line ending. -/
def writeError (st : TerminalState) (messageParts : List TextSegment) : OpResult :=
  ⟨writeSegmentsToProviders st.providers
    (messageParts.map (fun part => TextSegment.seq (forceForeground Color.Red part)))
    Severity.warn, st⟩

/-- `writeErrorLine(...messageParts)`: foreground forced to Yellow (so in the
source, not Red), one appended `{ text: EOL }` segment, severity `warn`. -/
def writeErrorLine (eol : String) (st : TerminalState) (messageParts : List TextSegment) :
    OpResult :=
  ⟨writeSegmentsToProviders st.providers
    (messageParts.map (fun part => TextSegment.seq (forceForeground Color.Yellow part)) ++
      [eolSegment eol])
    Severity.warn, st⟩

/-- `writeVerbose(...messageParts)`: gated on `this.verboseEnabled`; when
disabled, nothing happens. -/
def writeVerbose (st : TerminalState) (messageParts : List TextSegment) : OpResult :=
  if st.verboseEnabled then
    ⟨writeSegmentsToProviders st.providers messageParts Severity.log, st⟩
  else
    ⟨⟨[], 0, 0⟩, st⟩

/-- `writeVerboseLine(...messageParts)` as written in the source calls
`this.writeVerboseLine(...messageParts, { text: EOL })` — itself, with one
more EOL segment.  The recursion has no base case, so the embedding uses a
fuel parameter: `none` means the call did not complete within the given
number of recursive steps. -/
def writeVerboseLineFuel (eol : String) (st : TerminalState) :
    Nat → List TextSegment → Option OpResult
  | 0, _ => none
  | n + 1, messageParts => writeVerboseLineFuel eol st n (messageParts ++ [eolSegment eol])

end Terminal

/-! ## Helper lemmas about the fan-out loop and the serializer -/

theorem cellRead_fst_of_inv (cell : Option String) (fresh : String)
    (h : cell = none ∨ cell = some fresh) : (cellRead cell fresh).1 = fresh := by
  rcases h with h | h <;> subst h
  · rfl
  · by_cases hf : fresh = "" <;> simp [cellRead, hf]

theorem serializeFormattableTextSegments_cons (s : TextSegment) (rest : List TextSegment)
    (b : Bool) :
    serializeFormattableTextSegments (s :: rest) b =
      serializeSegment b s ++ serializeFormattableTextSegments rest b := rfl

theorem writeSegmentsGo_events_spec (segs : List TextSegment) (sev : Severity)
    (ps : List Provider) :
    ∀ (colorCell plainCell : Option String),
      (colorCell = none ∨ colorCell = some (serializeFormattableTextSegments segs true)) →
      (plainCell = none ∨ plainCell = some (serializeFormattableTextSegments segs false)) →
      ∀ e ∈ (writeSegmentsGo segs sev ps colorCell plainCell).events,
        e.severity = sev ∧
        e.text = serializeFormattableTextSegments segs e.provider.supportsColor := by
  induction ps with
  | nil =>
    intro colorCell plainCell _ _ e he
    simp [writeSegmentsGo] at he
  | cons p rest ih =>
    intro colorCell plainCell hc hp e he
    cases hps : p.supportsColor
    · have hv := cellRead_fst_of_inv plainCell (serializeFormattableTextSegments segs false) hp
      simp only [writeSegmentsGo, hps, Bool.false_eq_true, if_false] at he
      rcases List.mem_cons.mp he with he | he
      · subst he
        exact ⟨rfl, by simp [hv, hps]⟩
      · exact ih colorCell (some _) hc (Or.inr (by rw [hv])) e he
    · have hv := cellRead_fst_of_inv colorCell (serializeFormattableTextSegments segs true) hc
      simp only [writeSegmentsGo, hps, if_true] at he
      rcases List.mem_cons.mp he with he | he
      · subst he
        exact ⟨rfl, by simp [hv, hps]⟩
      · exact ih (some _) plainCell (Or.inr (by rw [hv])) hp e he

theorem writeSegmentsGo_providers_map (segs : List TextSegment) (sev : Severity)
    (ps : List Provider) :
    ∀ colorCell plainCell,
      ((writeSegmentsGo segs sev ps colorCell plainCell).events).map (fun e => e.provider) = ps := by
  induction ps with
  | nil => intro _ _; rfl
  | cons p rest ih =>
    intro colorCell plainCell
    cases hps : p.supportsColor <;> simp [writeSegmentsGo, hps, ih]

theorem writeSegmentsGo_color_done (segs : List TextSegment) (sev : Severity)
    (hne : serializeFormattableTextSegments segs true ≠ "") (ps : List Provider) :
    ∀ plainCell,
      (writeSegmentsGo segs sev ps (some (serializeFormattableTextSegments segs true))
        plainCell).colorComputes = 0 := by
  induction ps with
  | nil => intro _; rfl
  | cons p rest ih =>
    intro plainCell
    cases hps : p.supportsColor
    · simp [writeSegmentsGo, hps, ih]
    · simp [writeSegmentsGo, hps, cellRead, hne, ih]

theorem writeSegmentsGo_color_start (segs : List TextSegment) (sev : Severity)
    (hne : serializeFormattableTextSegments segs true ≠ "") (ps : List Provider) :
    ∀ plainCell,
      (writeSegmentsGo segs sev ps none plainCell).colorComputes =
        if ps.any (fun p => p.supportsColor) then 1 else 0 := by
  induction ps with
  | nil => intro _; rfl
  | cons p rest ih =>
    intro plainCell
    cases hps : p.supportsColor
    · simp [writeSegmentsGo, hps, ih]
    · simp [writeSegmentsGo, hps, cellRead, writeSegmentsGo_color_done segs sev hne rest]

theorem writeSegmentsGo_plain_done (segs : List TextSegment) (sev : Severity)
    (hne : serializeFormattableTextSegments segs false ≠ "") (ps : List Provider) :
    ∀ colorCell,
      (writeSegmentsGo segs sev ps colorCell
        (some (serializeFormattableTextSegments segs false))).plainComputes = 0 := by
  induction ps with
  | nil => intro _; rfl
  | cons p rest ih =>
    intro colorCell
    cases hps : p.supportsColor
    · simp [writeSegmentsGo, hps, cellRead, hne, ih]
    · simp [writeSegmentsGo, hps, ih]

theorem writeSegmentsGo_plain_start (segs : List TextSegment) (sev : Severity)
    (hne : serializeFormattableTextSegments segs false ≠ "") (ps : List Provider) :
    ∀ colorCell,
      (writeSegmentsGo segs sev ps colorCell none).plainComputes =
        if ps.any (fun p => !p.supportsColor) then 1 else 0 := by
  induction ps with
  | nil => intro _; rfl
  | cons p rest ih =>
    intro colorCell
    cases hps : p.supportsColor
    · simp [writeSegmentsGo, hps, cellRead, writeSegmentsGo_plain_done segs sev hne rest]
    · simp [writeSegmentsGo, hps, ih]

theorem writeSegmentsToProviders_events_spec (ps : List Provider) (segs : List TextSegment)
    (sev : Severity) :
    ∀ e ∈ (writeSegmentsToProviders ps segs sev).events,
      e.severity = sev ∧
      e.text = serializeFormattableTextSegments segs e.provider.supportsColor :=
  writeSegmentsGo_events_spec segs sev ps none none (Or.inl rfl) (Or.inl rfl)

theorem writeSegmentsToProviders_providers_map (ps : List Provider) (segs : List TextSegment)
    (sev : Severity) :
    ((writeSegmentsToProviders ps segs sev).events).map (fun e => e.provider) = ps :=
  writeSegmentsGo_providers_map segs sev ps none none

theorem serializeSegment_colorless (seg : TextSegment) (h : colorless seg = true) :
    serializeSegment true seg = serializeSegment false seg := by
  cases seg with
  | str s =>
    simp [serializeSegment, toSequence, segmentStartCodes, segmentEndCodes, foregroundCodes,
      backgroundCodes, concatAll, String.empty_append, String.append_empty]
  | seq c =>
    simp only [colorless, Bool.and_eq_true, Option.isNone_iff_eq_none] at h
    obtain ⟨hf, hb⟩ := h
    simp [serializeSegment, toSequence, segmentStartCodes, segmentEndCodes, hf, hb,
      foregroundCodes, backgroundCodes, concatAll, String.empty_append, String.append_empty]

theorem serializeSegment_plain (seg : TextSegment) :
    serializeSegment false seg = (toSequence seg).text := by
  cases seg <;> rfl

/-! ## Claim theorems -/

/-- Claim C1: fails on the source.  `writeVerboseLine` re-invokes itself with
one extra EOL segment and has no base case, so the call never returns: in the
fuel model it exhausts any amount of fuel, for every line ending, state and
argument list, without completing.  (The remaining public write methods are
total functions of this embedding and always return.) -/
theorem writeVerboseLine_diverges (eol : String) (st : TerminalState) (fuel : Nat) :
    ∀ messageParts : List TextSegment,
      Terminal.writeVerboseLineFuel eol st fuel messageParts = none := by
  induction fuel with
  | zero => intro _; rfl
  | succ n ih => intro messageParts; exact ih _

/-- Claim C2 counterexample: a `writeError()` call with no arguments
serializes to the empty string, which the `withColor || (withColor = ...)`
memoization treats as still unset; with two color-capable and two plain
providers each rendering is computed twice, not once. -/
theorem fanout_once_counterexample :
    ¬ ((Terminal.writeError ⟨[⟨0, true⟩, ⟨1, true⟩, ⟨2, false⟩, ⟨3, false⟩], false⟩
          []).fanout.colorComputes = 1 ∧
        (Terminal.writeError ⟨[⟨0, true⟩, ⟨1, true⟩, ⟨2, false⟩, ⟨3, false⟩], false⟩
          []).fanout.plainComputes = 1) := by decide

/-- Claim C2 (amended): when both renderings are non-empty strings, a fan-out
over providers that include at least one with color support and at least one
without computes the colored rendering exactly once and the plain rendering
exactly once, and every provider's write is invoked with the rendering
matching its own `supportsColor` flag.  (When a rendering is the empty
string, the falsy memoization check recomputes it for each provider of that
class.) -/
theorem fanout_serializes_once_per_class (ps : List Provider) (segs : List TextSegment)
    (sev : Severity)
    (hcolor : serializeFormattableTextSegments segs true ≠ "")
    (hplain : serializeFormattableTextSegments segs false ≠ "")
    (hsome : ps.any (fun p => p.supportsColor) = true)
    (hnone : ps.any (fun p => !p.supportsColor) = true) :
    (writeSegmentsToProviders ps segs sev).colorComputes = 1 ∧
    (writeSegmentsToProviders ps segs sev).plainComputes = 1 ∧
    ∀ e ∈ (writeSegmentsToProviders ps segs sev).events,
      e.text = serializeFormattableTextSegments segs e.provider.supportsColor := by
  refine ⟨?_, ?_, ?_⟩
  · simp [writeSegmentsToProviders, writeSegmentsGo_color_start segs sev hcolor ps none, hsome]
  · simp [writeSegmentsToProviders, writeSegmentsGo_plain_start segs sev hplain ps none, hnone]
  · intro e he
    exact (writeSegmentsToProviders_events_spec ps segs sev e he).2

theorem fanout_serializes_once_witness :
    (writeSegmentsToProviders [⟨0, true⟩, ⟨1, false⟩] [TextSegment.str "a"]
      Severity.log).colorComputes = 1 :=
  (fanout_serializes_once_per_class [⟨0, true⟩, ⟨1, false⟩] [TextSegment.str "a"] Severity.log
    (by decide) (by decide) (by decide) (by decide)).1

/-- Claim C3 counterexample: `write("a")` on a single no-color provider
delivers `"a\n"`, not the bare serialization `"a"` of the caller's segments:
`write` itself appends a `{ text: EOL }` segment. -/
theorem write_unmodified_counterexample :
    (Terminal.write "\n" ⟨[⟨0, false⟩], false⟩ [TextSegment.str "a"]).fanout.events =
      [⟨⟨0, false⟩, "a\n", Severity.log⟩] ∧
    serializeFormattableTextSegments [TextSegment.str "a"] false = "a" ∧
    ("a\n" : String) ≠ "a" := by decide

/-- Claim C3 (amended): `write` applies no segment transform and routes at
severity `log`, but does append one platform line-ending segment: every
provider receives the serialization, for its own color capability, of the
caller-supplied segments followed by `{ text: EOL }`, one event per
registered provider in order. -/
theorem write_spec (eol : String) (st : TerminalState) (parts : List TextSegment)
    (e : WriteEvent) (he : e ∈ (Terminal.write eol st parts).fanout.events) :
    e.severity = Severity.log ∧
    e.text = serializeFormattableTextSegments (parts ++ [eolSegment eol])
      e.provider.supportsColor ∧
    ((Terminal.write eol st parts).fanout.events).map (fun x => x.provider) = st.providers := by
  have h := writeSegmentsToProviders_events_spec st.providers (parts ++ [eolSegment eol])
    Severity.log e he
  exact ⟨h.1, h.2, writeSegmentsToProviders_providers_map st.providers _ Severity.log⟩

theorem write_spec_witness :
    (⟨⟨0, false⟩, "a\n", Severity.log⟩ : WriteEvent).text =
      serializeFormattableTextSegments ([TextSegment.str "a"] ++ [eolSegment "\n"])
        (⟨0, false⟩ : Provider).supportsColor :=
  (write_spec "\n" ⟨[⟨0, false⟩], false⟩ [TextSegment.str "a"]
    ⟨⟨0, false⟩, "a\n", Severity.log⟩ (by decide)).2.1

/-- Claim C4: `writeLine(x)` delivers to every registered provider without
color support the string `x` followed by exactly two copies of the platform
line ending: `write` appends one EOL segment and `writeLine` passes it a
second one. -/
theorem writeLine_two_eols (eol x : String) (st : TerminalState) (e : WriteEvent)
    (he : e ∈ (Terminal.writeLine eol st [TextSegment.str x]).fanout.events)
    (hnc : e.provider.supportsColor = false) :
    e.text = x ++ eol ++ eol ∧
    ((Terminal.writeLine eol st [TextSegment.str x]).fanout.events).map (fun y => y.provider) =
      st.providers := by
  have h := writeSegmentsToProviders_events_spec st.providers
    [TextSegment.str x, eolSegment eol, eolSegment eol] Severity.log e he
  constructor
  · rw [h.2, hnc]
    simp [serializeFormattableTextSegments, serializeSegment, eolSegment, concatAll,
      String.append_empty, String.append_assoc]
  · exact writeSegmentsToProviders_providers_map st.providers _ Severity.log

theorem writeLine_two_eols_witness :
    (⟨⟨0, false⟩, "x\n\n", Severity.log⟩ : WriteEvent).text = "x" ++ "\n" ++ "\n" :=
  (writeLine_two_eols "\n" "x" ⟨[⟨0, false⟩], false⟩ ⟨⟨0, false⟩, "x\n\n", Severity.log⟩
    (by decide) rfl).1

/-- Claim C5 counterexample: with verbose enabled, `writeVerbose("a")` does
not behave exactly like `write("a")`: `write` appends a line ending,
`writeVerbose` does not, so the same provider receives different strings. -/
theorem writeVerbose_not_write_counterexample :
    (Terminal.writeVerbose ⟨[⟨0, false⟩], true⟩ [TextSegment.str "a"]).fanout.events =
      [⟨⟨0, false⟩, "a", Severity.log⟩] ∧
    (Terminal.write "\n" ⟨[⟨0, false⟩], true⟩ [TextSegment.str "a"]).fanout.events =
      [⟨⟨0, false⟩, "a\n", Severity.log⟩] ∧
    (Terminal.writeVerbose ⟨[⟨0, false⟩], true⟩ [TextSegment.str "a"]).fanout.events ≠
      (Terminal.write "\n" ⟨[⟨0, false⟩], true⟩ [TextSegment.str "a"]).fanout.events := by
  decide

/-- Claim C5 (amended): when `verboseEnabled` is false, `writeVerbose`
delivers nothing to any provider; when it is true, `writeVerbose` delivers
exactly the caller's segments serialized per provider capability at severity
`log` with no appended line ending — thereby differing from `write`, which
appends one EOL segment. -/
theorem writeVerbose_spec (st : TerminalState) (parts : List TextSegment) :
    (st.verboseEnabled = false → (Terminal.writeVerbose st parts).fanout.events = []) ∧
    (st.verboseEnabled = true →
      ((Terminal.writeVerbose st parts).fanout.events).map (fun e => e.provider) =
        st.providers ∧
      ∀ e ∈ (Terminal.writeVerbose st parts).fanout.events,
        e.severity = Severity.log ∧
        e.text = serializeFormattableTextSegments parts e.provider.supportsColor) := by
  constructor
  · intro hv
    simp [Terminal.writeVerbose, hv]
  · intro hv
    constructor
    · simp [Terminal.writeVerbose, hv, writeSegmentsToProviders_providers_map]
    · intro e he
      simp only [Terminal.writeVerbose, hv, if_true] at he
      exact writeSegmentsToProviders_events_spec st.providers parts Severity.log e he

theorem writeVerbose_spec_witness :
    (Terminal.writeVerbose ⟨[⟨0, false⟩], false⟩ [TextSegment.str "a"]).fanout.events = [] :=
  (writeVerbose_spec ⟨[⟨0, false⟩], false⟩ [TextSegment.str "a"]).1 rfl

/-- Claim C6: a single segment with foreground Yellow and background Blue
serializes with color to `ESC[33m ESC[44m text ESC[49m ESC[39m`: start codes
in foreground-then-background order, end codes in reverse push order
(background reset 49 before foreground reset 39). -/
theorem serialize_yellow_on_blue (text : String) :
    serializeFormattableTextSegments
        [TextSegment.seq ⟨text, some Color.Yellow, some Color.Blue⟩] true =
      "\u001b[33m" ++ "\u001b[44m" ++ text ++ "\u001b[49m" ++ "\u001b[39m" := by
  have h33 : colorEscape 33 = "\u001b[33m" := rfl
  have h44 : colorEscape 44 = "\u001b[44m" := rfl
  have h49 : colorEscape 49 = "\u001b[49m" := rfl
  have h39 : colorEscape 39 = "\u001b[39m" := rfl
  simp [serializeFormattableTextSegments, serializeSegment, toSequence, segmentStartCodes,
    segmentEndCodes, foregroundCodes, backgroundCodes, concatAll, h33, h44, h49, h39,
    String.append_empty, String.empty_append, String.append_assoc]

/-- Claim C7: for a segment sequence in which no segment has a color set, the
colored and the plain serialization agree, and both equal the in-order
concatenation of the segments' text. -/
theorem serialize_colorless (segs : List TextSegment) :
    (∀ seg ∈ segs, colorless seg = true) →
    serializeFormattableTextSegments segs true = serializeFormattableTextSegments segs false ∧
    serializeFormattableTextSegments segs false =
      concatAll (segs.map (fun seg => (toSequence seg).text)) := by
  induction segs with
  | nil => intro _; exact ⟨rfl, rfl⟩
  | cons s rest ih =>
    intro h
    have hs := serializeSegment_colorless s (h s (List.mem_cons_self s rest))
    obtain ⟨ih1, ih2⟩ := ih (fun seg hseg => h seg (List.mem_cons_of_mem s hseg))
    constructor
    · rw [serializeFormattableTextSegments_cons, serializeFormattableTextSegments_cons, hs, ih1]
    · rw [serializeFormattableTextSegments_cons, serializeSegment_plain, ih2]
      rfl

theorem serialize_colorless_witness :
    serializeFormattableTextSegments
        [TextSegment.str "a", TextSegment.seq ⟨"b", none, none⟩] true =
      serializeFormattableTextSegments
        [TextSegment.str "a", TextSegment.seq ⟨"b", none, none⟩] false :=
  (serialize_colorless [TextSegment.str "a", TextSegment.seq ⟨"b", none, none⟩] (by decide)).1

/-- Claim C8: `writeError` routes at severity `warn` (there is no distinct
error severity), delivers the serialization of the caller's segments with
each foreground color overwritten to Red — a fresh record that keeps the text
and any existing background color, even when the caller had set another
foreground color — and appends no line ending. -/
theorem writeError_spec (st : TerminalState) (parts : List TextSegment) (e : WriteEvent)
    (he : e ∈ (Terminal.writeError st parts).fanout.events) :
    e.severity = Severity.warn ∧
    e.text = serializeFormattableTextSegments
      (parts.map (fun part => TextSegment.seq (forceForeground Color.Red part)))
      e.provider.supportsColor ∧
    ∀ part : TextSegment,
      (forceForeground Color.Red part).foregroundColor = some Color.Red ∧
      (forceForeground Color.Red part).text = (toSequence part).text ∧
      (forceForeground Color.Red part).backgroundColor = (toSequence part).backgroundColor := by
  have h := writeSegmentsToProviders_events_spec st.providers
    (parts.map (fun part => TextSegment.seq (forceForeground Color.Red part))) Severity.warn e he
  exact ⟨h.1, h.2, fun part => ⟨rfl, rfl, rfl⟩⟩

theorem writeError_spec_witness :
    (⟨⟨0, true⟩, "\u001b[31m\u001b[42ma\u001b[49m\u001b[39m", Severity.warn⟩ :
      WriteEvent).severity = Severity.warn :=
  (writeError_spec ⟨[⟨0, true⟩], false⟩
    [TextSegment.seq ⟨"a", some Color.Blue, some Color.Green⟩]
    ⟨⟨0, true⟩, "\u001b[31m\u001b[42ma\u001b[49m\u001b[39m", Severity.warn⟩ (by decide)).1

/-- Claim C9: `writeErrorLine` routes at severity `warn` and delivers each
segment with its foreground color forced to Yellow (the source really uses
Yellow here, not Red) while keeping any existing background color, followed
by one trailing `{ text: EOL }` segment. -/
theorem writeErrorLine_spec (eol : String) (st : TerminalState) (parts : List TextSegment)
    (e : WriteEvent) (he : e ∈ (Terminal.writeErrorLine eol st parts).fanout.events) :
    e.severity = Severity.warn ∧
    e.text = serializeFormattableTextSegments
      (parts.map (fun part => TextSegment.seq (forceForeground Color.Yellow part)) ++
        [eolSegment eol])
      e.provider.supportsColor ∧
    eolSegment eol = TextSegment.seq ⟨eol, none, none⟩ ∧
    ∀ part : TextSegment,
      (forceForeground Color.Yellow part).foregroundColor = some Color.Yellow ∧
      (forceForeground Color.Yellow part).text = (toSequence part).text ∧
      (forceForeground Color.Yellow part).backgroundColor =
        (toSequence part).backgroundColor := by
  have h := writeSegmentsToProviders_events_spec st.providers
    (parts.map (fun part => TextSegment.seq (forceForeground Color.Yellow part)) ++
      [eolSegment eol]) Severity.warn e he
  exact ⟨h.1, h.2, rfl, fun part => ⟨rfl, rfl, rfl⟩⟩

theorem writeErrorLine_spec_witness :
    (⟨⟨0, false⟩, "a\n", Severity.warn⟩ : WriteEvent).severity = Severity.warn :=
  (writeErrorLine_spec "\n" ⟨[⟨0, false⟩], false⟩ [TextSegment.str "a"]
    ⟨⟨0, false⟩, "a\n", Severity.warn⟩ (by decide)).1

/-- Claim C10: every public write operation leaves the terminal's own state —
the registered provider list and the `verboseEnabled` flag — unchanged; in
this embedding only `registerProvider` and `unregisterProvider` (and direct
assignment to `verboseEnabled`) produce a different state. -/
theorem write_ops_frame (eol : String) (st : TerminalState) (parts : List TextSegment) :
    (Terminal.write eol st parts).state = st ∧
    (Terminal.writeLine eol st parts).state = st ∧
    (Terminal.writeWarning st parts).state = st ∧
    (Terminal.writeWarningLine eol st parts).state = st ∧
    (Terminal.writeError st parts).state = st ∧
    (Terminal.writeErrorLine eol st parts).state = st ∧
    (Terminal.writeVerbose st parts).state = st := by
  refine ⟨rfl, rfl, rfl, rfl, rfl, rfl, ?_⟩
  by_cases hv : st.verboseEnabled <;> simp [Terminal.writeVerbose, hv]
